import Mathlib

/-!
Shallow embedding of the PayLog expense tracker (src/main.py,
src/paylog_ai_python/analytics.py, src/ai_service.py).

Money amounts are modelled as rationals, dates as integer day numbers
(the source stores dates as dd/mm/yyyy strings and compares them as
datetimes; day arithmetic is exact, so an integer day number is a
faithful model).  The Google-Sheets worksheets are modelled as Lean
lists of structure values, appended and updated functionally.
-/

namespace PayLog

/-- A row of the `transactions` worksheet, in the column order written by
`ExpenseTracker.add_transaction`: date, type, wallet_type, amount,
description, balance_total, balance_wallet, category, merchant. -/
structure Row where
  date : Int
  ttype : String
  wallet_type : String
  amount : ℚ
  description : String
  balance_total : ℚ
  balance_wallet : ℚ
  category : String
  merchant : String
deriving DecidableEq, Repr

/-- A row of the `lending` worksheet, in the column order written by
`ExpenseTracker.add_lending`: date, person, amount, status, description,
return_date, return_to, remaining. -/
structure LRow where
  date : Int
  person : String
  amount : ℚ
  status : String
  description : String
  return_date : Option Int
  return_to : String
  remaining : ℚ
deriving DecidableEq, Repr

/-- Python `str.lower()` as used for person matching, modelled as ASCII case
folding over the character list. -/
def pyLower (s : String) : String := ⟨s.data.map Char.toLower⟩

/-- `ExpenseTracker.get_current_balances`: the balance checkpoints stored in
the last transactions row, or (0, 0) when the sheet is empty. -/
def get_current_balances (sheet : List Row) : ℚ × ℚ :=
  match sheet.getLast? with
  | some r => (r.balance_total, r.balance_wallet)
  | none => (0, 0)

/-- `ExpenseTracker.add_transaction`: reads the current balances, applies the
signed amount to the named wallet (any transaction type other than `add`
subtracts; a wallet_type outside total/wallet changes neither balance),
appends one row carrying the new checkpoints, and returns the new balances. -/
def add_transaction (sheet : List Row) (transaction_type wallet_kind : String)
    (amount : ℚ) (description category merchant : String) (date : Int) :
    List Row × ℚ × ℚ :=
  let tb := (get_current_balances sheet).1
  let wb := (get_current_balances sheet).2
  let tb' := if wallet_kind = "total" then
      (if transaction_type = "add" then tb + amount else tb - amount) else tb
  let wb' := if wallet_kind = "wallet" then
      (if transaction_type = "add" then wb + amount else wb - amount) else wb
  let row : Row :=
    ⟨date, transaction_type, wallet_kind, amount, description, tb', wb', category, merchant⟩
  (sheet ++ [row], tb', wb')

/-- `ExpenseTracker.transfer_between_wallets`: the only accepted directions are
total→wallet and wallet→total; moving more than the source balance fails; on
success one synthetic row tagged `<from>_to_<to>` / category `transfer` is
appended.  The result is (new sheet, success, message, total, wallet). -/
def transfer_between_wallets (sheet : List Row) (from_wallet to_wallet : String)
    (amount : ℚ) (description : String) (date : Int) :
    List Row × Bool × String × ℚ × ℚ :=
  let tb := (get_current_balances sheet).1
  let wb := (get_current_balances sheet).2
  if from_wallet = "total" ∧ to_wallet = "wallet" then
    if tb < amount then (sheet, false, "Insufficient balance in Total Stack", 0, 0)
    else
      let row : Row := ⟨date, "transfer", from_wallet ++ "_to_" ++ to_wallet, amount,
        description, tb - amount, wb + amount, "transfer", ""⟩
      (sheet ++ [row], true, "Transfer successful", tb - amount, wb + amount)
  else if from_wallet = "wallet" ∧ to_wallet = "total" then
    if wb < amount then (sheet, false, "Insufficient balance in Wallet", 0, 0)
    else
      let row : Row := ⟨date, "transfer", from_wallet ++ "_to_" ++ to_wallet, amount,
        description, tb + amount, wb - amount, "transfer", ""⟩
      (sheet ++ [row], true, "Transfer successful", tb + amount, wb - amount)
  else (sheet, false, "Invalid transfer", 0, 0)

/-- `ExpenseTracker.add_lending`: appends one lending row with status `lent`
and `remaining` initialised to the loan amount. -/
def add_lending (lending : List LRow) (person : String) (amount : ℚ)
    (description : String) (date : Int) : List LRow :=
  lending ++ [⟨date, person, amount, "lent", description, none, "", amount⟩]

/-- The row loop of `ExpenseTracker.return_lending`: walks the lending rows in
stored order with a repayment pool; stops when the pool is exhausted; a row is
touched only when the person matches (case-insensitively) and its status is
exactly `lent`; a row whose remaining fits in the pool is closed
(status `returned`, remaining 0, return date and destination stamped),
otherwise the row goes to `partial` and the pool to 0.  Returns the updated
rows and the leftover pool. -/
def return_lending_loop (records : List LRow) (person_lower : String) (pool : ℚ)
    (return_to : String) (today : Int) : List LRow × ℚ :=
  match records with
  | [] => ([], pool)
  | r :: rest =>
    if pool ≤ 0 then (r :: rest, pool)
    else if pyLower r.person = person_lower ∧ r.status = "lent" then
      if r.remaining ≤ pool then
        let res := return_lending_loop rest person_lower (pool - r.remaining) return_to today
        ({ r with status := "returned", return_date := some today, return_to := return_to, remaining := 0 } :: res.1, res.2)
      else
        ({ r with status := "partial", remaining := r.remaining - pool } :: rest, 0)
    else
      let res := return_lending_loop rest person_lower pool return_to today
      (r :: res.1, res.2)

/-- `ExpenseTracker.return_lending`: runs the row loop; when any money was
applied it records one `add` transaction of the applied amount to the target
wallet (category `lending`) and succeeds, otherwise it fails.  The result is
(lending rows, transactions rows, success, applied amount). -/
def return_lending (lending : List LRow) (transactions : List Row)
    (person : String) (amount : ℚ) (return_to : String) (today : Int) :
    List LRow × List Row × Bool × ℚ :=
  let res := return_lending_loop lending (pyLower person) amount return_to today
  if res.2 < amount then
    let applied := amount - res.2
    let tres := add_transaction transactions "add" return_to applied
      ("Returned by " ++ person) "lending" "" today
    (res.1, tres.1, true, applied)
  else
    (res.1, transactions, false, 0)

/-- `ExpenseTracker.get_pending_lending_for_person`: sums `remaining` over the
rows of that person whose status is `lent` or `partial`. -/
def get_pending_lending_for_person (lending : List LRow) (person : String) : ℚ :=
  lending.foldl (fun s r =>
    if pyLower r.person = pyLower person ∧ (r.status = "lent" ∨ r.status = "partial")
    then s + r.remaining else s) 0

/-! ## The balance-replay invariant (claim C2)

The spec side of the refinement: each stored row carries a signed delta for
each of the two balances, and replaying (folding) those deltas from (0, 0)
must reproduce the checkpoint columns. -/

/-- Spec-side signed delta of a row on the total balance: rows written by
`transfer_between_wallets` carry type `transfer` and a `<from>_to_<to>` tag;
rows written by `add_transaction` move the named wallet by ±amount. -/
def rowDeltaTotal (r : Row) : ℚ :=
  if r.ttype = "transfer" then
    if r.wallet_type = "total_to_wallet" then -r.amount
    else if r.wallet_type = "wallet_to_total" then r.amount
    else 0
  else if r.wallet_type = "total" then
    (if r.ttype = "add" then r.amount else -r.amount)
  else 0

/-- Spec-side signed delta of a row on the wallet balance. -/
def rowDeltaWallet (r : Row) : ℚ :=
  if r.ttype = "transfer" then
    if r.wallet_type = "total_to_wallet" then r.amount
    else if r.wallet_type = "wallet_to_total" then -r.amount
    else 0
  else if r.wallet_type = "wallet" then
    (if r.ttype = "add" then r.amount else -r.amount)
  else 0

/-- Spec-side replay: fold the signed deltas of the rows, in order, from
(0, 0). -/
def replay (sheet : List Row) : ℚ × ℚ :=
  sheet.foldl (fun p r => (p.1 + rowDeltaTotal r, p.2 + rowDeltaWallet r)) (0, 0)

/-- A call to `ExpenseTracker.add_transaction` (the bot only ever passes
transaction types `add` and `subtract`) or to
`ExpenseTracker.transfer_between_wallets`. -/
inductive TOp where
  | record (isAdd : Bool) (wallet_kind : String) (amount : ℚ)
      (description category merchant : String) (date : Int)
  | transfer (from_wallet to_wallet : String) (amount : ℚ)
      (description : String) (date : Int)
deriving DecidableEq, Repr

/-- The sheet produced by one tracker call. -/
def applyTOp (sheet : List Row) (op : TOp) : List Row :=
  match op with
  | .record isAdd wt a d c m day =>
      (add_transaction sheet (if isAdd then "add" else "subtract") wt a d c m day).1
  | .transfer f t a d day => (transfer_between_wallets sheet f t a d day).1

/-- The transactions sheet produced by a sequence of tracker calls starting
from the empty ledger. -/
def runTOps (ops : List TOp) : List Row := ops.foldl applyTOp []

/-- Every prefix of the sheet replays to the checkpoint columns stored in the
last row of that prefix. -/
def coherent (sheet : List Row) : Prop :=
  ∀ i (h : i < sheet.length),
    replay (sheet.take (i + 1)) =
      ((sheet.get ⟨i, h⟩).balance_total, (sheet.get ⟨i, h⟩).balance_wallet)

/-- The invariant carried through the induction: coherence plus the cached
last-row balances agreeing with the replay of the whole sheet. -/
def SheetInv (sheet : List Row) : Prop :=
  coherent sheet ∧ get_current_balances sheet = replay sheet

/-! ## Lending traces (claims C1, C3, C5) -/

/-- Sum of the `remaining` column over a list of lending rows. -/
def sumRemaining (l : List LRow) : ℚ := (l.map fun r => r.remaining).sum

/-- Sum of the `amount` column over a list of lending rows. -/
def sumAmount (l : List LRow) : ℚ := (l.map fun r => r.amount).sum

/-- A call to `ExpenseTracker.add_lending` or `ExpenseTracker.return_lending`
for a fixed person. -/
inductive LOp where
  | lend (amount : ℚ) (description : String) (date : Int)
  | repay (amount : ℚ) (return_to : String) (date : Int)
deriving DecidableEq, Repr

/-- The lending sheet, the transactions sheet and the running total of
successfully applied repayments. -/
structure LState where
  lending : List LRow
  transactions : List Row
  applied : ℚ
deriving DecidableEq, Repr

/-- One lending-trace step for the fixed person. -/
def applyLOp (person : String) (s : LState) (op : LOp) : LState :=
  match op with
  | .lend a d day => { s with lending := add_lending s.lending person a d day }
  | .repay a rt day =>
      let res := return_lending s.lending s.transactions person a rt day
      { lending := res.1, transactions := res.2.1, applied := s.applied + res.2.2.2 }

/-- The state after a sequence of lending calls for one person, starting from
empty sheets. -/
def runLOps (person : String) (ops : List LOp) : LState :=
  ops.foldl (applyLOp person) ⟨[], [], 0⟩

/-- The loan-conservation invariant of a lending-trace state: the remaining of every row is between 0 and its amount, and the remainings sum to the original
amounts minus the successfully applied repayments. -/
def LInv (s : LState) : Prop :=
  (∀ r ∈ s.lending, 0 ≤ r.remaining ∧ r.remaining ≤ r.amount) ∧
  sumRemaining s.lending = sumAmount s.lending - s.applied

/-! ## Analytics (claims C6, C7, C9), from
`src/paylog_ai_python/analytics.py` -/

/-- The category normalisation of the source, `t.get(category, other) or other`: the empty (falsy) string becomes `other`. -/
def normCat (c : String) : String := if c = "" then "other" else c

/-- `ExpenseAnalytics.calculate_daily_average`: the sum of debit amounts in the
trailing `days`-day window divided by the fixed divisor `days`. -/
def calculate_daily_average (transactions : List Row) (days : Int) (now : Int) : ℚ :=
  if transactions = [] then 0
  else
    let cutoff := now - days
    let recent_expenses :=
      (transactions.filter fun t => t.ttype = "subtract" ∧ cutoff ≤ t.date).map
        fun t => t.amount
    if 0 < days then recent_expenses.sum / (days : ℚ) else 0

/-- `ExpenseAnalytics.calculate_category_average`: the sum of in-category debit
amounts in the window divided by `max(count, 1)`. -/
def calculate_category_average (transactions : List Row) (category : String)
    (days : Int) (now : Int) : ℚ :=
  if transactions = [] then 0
  else
    let cutoff := now - days
    let category_expenses :=
      (transactions.filter fun t =>
        t.ttype = "subtract" ∧ t.category = category ∧ cutoff ≤ t.date).map
        fun t => t.amount
    category_expenses.sum / (max category_expenses.length 1 : ℚ)

/-- Spec side for C9: sum of in-window debit amounts over the fixed divisor
`days`. -/
def spec_daily_average (transactions : List Row) (days : Int) (now : Int) : ℚ :=
  ((transactions.filter fun t => t.ttype = "subtract" ∧ now - days ≤ t.date).map
    fun t => t.amount).sum / (days : ℚ)

/-- Spec side for C9: sum of in-window in-category debit amounts over
`max(count, 1)`. -/
def spec_category_average (transactions : List Row) (category : String)
    (days : Int) (now : Int) : ℚ :=
  let l := (transactions.filter fun t =>
    t.ttype = "subtract" ∧ t.category = category ∧ now - days ≤ t.date).map
    fun t => t.amount
  l.sum / (max l.length 1 : ℚ)

/-- One weekly bucket of `ExpenseAnalytics.detect_trend`: total debit spending
with date in [week_start, week_end), optionally restricted to one category. -/
def weekTotal (transactions : List Row) (category : Option String)
    (week_start week_end : Int) : ℚ :=
  transactions.foldl (fun s t =>
    if week_start ≤ t.date ∧ t.date < week_end ∧ t.ttype = "subtract" ∧
        (category = none ∨ category = some (normCat t.category))
    then s + t.amount else s) 0

/-- The weekly buckets of `detect_trend`, oldest first (the source builds them
most recent first and reverses). -/
def weekTotals (transactions : List Row) (category : Option String)
    (weeks : Nat) (now : Int) : List ℚ :=
  (((List.range weeks).map fun k : Nat =>
    weekTotal transactions category (now - 7 * ((k : Int) + 1)) (now - 7 * (k : Int)))).reverse

/-- Python `f-string` `:.0f` rounding (round half to even) on an exact
rational. -/
def pyRound (q : ℚ) : ℤ :=
  let f := ⌊q⌋
  let r := q - f
  if r < 1 / 2 then f
  else if 1 / 2 < r then f + 1
  else if f % 2 = 0 then f else f + 1

/-- `ExpenseAnalytics.detect_trend`: with fewer than 2 transactions reports
"Not enough data"; otherwise compares the average of the two most recent
weekly buckets against the average of the two oldest and labels the percent
change (> +15 increasing, < −15 decreasing, else stable). -/
def detect_trend (transactions : List Row) (category : Option String)
    (weeks : Nat) (now : Int) : String :=
  if transactions.length < 2 then "Not enough data"
  else
    let week_totals := weekTotals transactions category weeks now
    if week_totals.length < 2 then "stable"
    else
      let recent_avg := (week_totals.drop (week_totals.length - 2)).sum / 2
      let older_avg := (week_totals.take 2).sum / 2
      if older_avg = 0 then (if 0 < recent_avg then "increasing" else "stable")
      else
        let change := (recent_avg - older_avg) / older_avg * 100
        if 15 < change then "increasing " ++ toString (pyRound |change|) ++ "%"
        else if change < -15 then "decreasing " ++ toString (pyRound |change|) ++ "%"
        else "stable"

/-- In-window spending of one category, as accumulated by the
`category_spending` defaultdict of `ExpenseAnalytics.analyze_budget`. -/
def category_spending (transactions : List Row) (cutoff : Int) (category : String) : ℚ :=
  transactions.foldl (fun s t =>
    if t.ttype = "subtract" ∧ cutoff ≤ t.date ∧ normCat t.category = category
    then s + t.amount else s) 0

/-- The per-category record built by `ExpenseAnalytics.analyze_budget`. -/
structure BudgetEntry where
  budget : ℚ
  spent : ℚ
  remaining : ℚ
  percentage : ℚ
  status : String
deriving DecidableEq, Repr

/-- `ExpenseAnalytics.analyze_budget`: per budgeted category the in-window
spending, remaining budget, percentage used and a status band
(≥100 exceeded, ≥90 critical, ≥75 warning, else good), plus the overall
totals.  Result: (categories, total_budget, total_spent, total_remaining,
overall_percentage). -/
def analyze_budget (transactions : List Row) (budgets : List (String × ℚ))
    (period_days : Int) (now : Int) :
    List (String × BudgetEntry) × ℚ × ℚ × ℚ × ℚ :=
  let cutoff := now - period_days
  let results := budgets.map fun cb =>
    let spent := category_spending transactions cutoff cb.1
    let percentage := if 0 < cb.2 then spent / cb.2 * 100 else 0
    let status :=
      if 100 ≤ percentage then "exceeded"
      else if 90 ≤ percentage then "critical"
      else if 75 ≤ percentage then "warning"
      else "good"
    (cb.1, BudgetEntry.mk cb.2 spent (cb.2 - spent) percentage status)
  let total_budget := (budgets.map fun cb => cb.2).sum
  let total_spent := transactions.foldl (fun s t =>
    if t.ttype = "subtract" ∧ cutoff ≤ t.date then s + t.amount else s) 0
  (results, total_budget, total_spent, total_budget - total_spent,
    if 0 < total_budget then total_spent / total_budget * 100 else 0)

/-! ## Financial health score (claim C8), from `src/ai_service.py` -/

/-- A goal as read by `calculate_financial_health_score`: only the
`completed` flag and the `progress` value are used. -/
structure Goal where
  completed : Bool
  progress : ℚ
deriving DecidableEq, Repr

/-- The input dictionary of `AIService.calculate_financial_health_score`. -/
structure HealthData where
  income : ℚ
  expenses : ℚ
  budget : ℚ
  savings : ℚ
  trend : String
  goals : List Goal
deriving DecidableEq, Repr

/-- The raw (unclamped) health score: base 50 plus the five factor
adjustments of `calculate_financial_health_score`. -/
def health_raw_score (d : HealthData) : ℤ :=
  let savingsPoints : ℤ :=
    if 0 < d.income then
      let savings_rate := (d.income - d.expenses) / d.income * 100
      if 30 ≤ savings_rate then 25
      else if 20 ≤ savings_rate then 20
      else if 10 ≤ savings_rate then 10
      else if 0 ≤ savings_rate then 5
      else -10
    else 0
  let budgetPoints : ℤ :=
    if 0 < d.budget then
      let budget_usage := d.expenses / d.budget * 100
      if budget_usage ≤ 80 then 20
      else if budget_usage ≤ 100 then 10
      else -15
    else 0
  let trendPoints : ℤ :=
    if d.trend = "decreasing" then 15
    else if d.trend = "stable" then 10
    else -5
  let monthly_expenses := if 0 < d.expenses then d.expenses else 30000
  let months_covered := if 0 < monthly_expenses then d.savings / monthly_expenses else 0
  let emergencyPoints : ℤ :=
    if 6 ≤ months_covered then 15
    else if 3 ≤ months_covered then 10
    else if 1 ≤ months_covered then 5
    else -5
  let active_goals := d.goals.filter fun g => !g.completed
  let goalPoints : ℤ :=
    if active_goals.length = 0 then 0
    else
      let goal_progress := (active_goals.map fun g => g.progress).sum / (active_goals.length : ℚ)
      if 75 ≤ goal_progress then 10
      else if 50 ≤ goal_progress then 5
      else 0
  50 + savingsPoints + budgetPoints + trendPoints + emergencyPoints + goalPoints

/-- `AIService.calculate_financial_health_score`: the raw score clamped to
[0, 100] and the letter grade (≥80 A, ≥60 B, ≥40 C, else D). -/
def calculate_financial_health_score (d : HealthData) : ℤ × String :=
  let score := max 0 (min 100 (health_raw_score d))
  let grade :=
    if 80 ≤ score then "A"
    else if 60 ≤ score then "B"
    else if 40 ≤ score then "C"
    else "D"
  (score, grade)

/-! ## Concrete inputs used by the closed theorems -/

/-- One lending row already in `partial` status for the C1 failing input. -/
def c1rows : List LRow := [⟨0, "John", 200, "partial", "", none, "", 150⟩]

/-- Two open loans, 100 recorded first and 200 second, for C5. -/
def c5rows : List LRow :=
  [⟨1, "John", 100, "lent", "", none, "", 100⟩,
   ⟨2, "John", 200, "lent", "", none, "", 200⟩]

/-- One in-window debit of 50 in category food, for the C6 counterexample. -/
def c6ts : List Row := [⟨0, "subtract", "wallet", 50, "", 0, 0, "food", ""⟩]

/-- Debits whose weekly buckets, oldest to newest, total 100, 100, 130, 130
(now = 100, weeks = 4), for C7. -/
def c7ts : List Row :=
  [⟨75, "subtract", "wallet", 100, "", 0, 0, "food", ""⟩,
   ⟨80, "subtract", "wallet", 100, "", 0, 0, "food", ""⟩,
   ⟨90, "subtract", "wallet", 130, "", 0, 0, "food", ""⟩,
   ⟨95, "subtract", "wallet", 130, "", 0, 0, "food", ""⟩]

/-- A health-score input whose raw score exceeds 100, for the C8 witness. -/
def c8data : HealthData := ⟨100, 0, 100, 1000000, "decreasing", [⟨false, 80⟩]⟩

/-- A two-call trace for the C2 witness. -/
def c2ops : List TOp :=
  [TOp.record true "total" 5 "salary" "income" "" 0,
   TOp.record false "wallet" 2 "snacks" "food" "" 1]

/-- A lend-then-partial-repay trace for the C3 witness. -/
def c3ops : List LOp :=
  [LOp.lend 100 "loan" 0, LOp.repay 30 "wallet" 1]

theorem replay_concat (l : List Row) (r : Row) :
    replay (l ++ [r]) = ((replay l).1 + rowDeltaTotal r, (replay l).2 + rowDeltaWallet r) := by
  simp [replay, List.foldl_append]

theorem sheetInv_nil : SheetInv [] := by
  constructor
  · intro i h
    simp at h
  · simp [get_current_balances, replay]

theorem sheetInv_snoc (l : List Row) (r : Row) (h : SheetInv l)
    (ht : r.balance_total = (replay l).1 + rowDeltaTotal r)
    (hw : r.balance_wallet = (replay l).2 + rowDeltaWallet r) :
    SheetInv (l ++ [r]) := by
  obtain ⟨hc, hb⟩ := h
  have hrep : replay (l ++ [r]) = (r.balance_total, r.balance_wallet) := by
    rw [replay_concat, ← ht, ← hw]
  constructor
  · intro i hi
    have hi' : i < l.length + 1 := by simpa using hi
    rcases Nat.lt_succ_iff_lt_or_eq.mp hi' with hlt | heq
    · have htake : (l ++ [r]).take (i + 1) = l.take (i + 1) :=
        List.take_append_of_le_length hlt
      have hget : (l ++ [r]).get ⟨i, hi⟩ = l.get ⟨i, hlt⟩ := by
        simp [List.getElem_append_left hlt]
      rw [htake, hget]
      exact hc i hlt
    · subst heq
      have htake : (l ++ [r]).take (l.length + 1) = l ++ [r] := by
        apply List.take_of_length_le
        simp

      have hget : (l ++ [r]).get ⟨l.length, hi⟩ = r := by
        simp
      rw [htake, hget, hrep]
  · have hlast : get_current_balances (l ++ [r]) = (r.balance_total, r.balance_wallet) := by
      simp [get_current_balances, List.getLast?_concat]
    rw [hlast, hrep]

theorem sheetInv_add_transaction (sheet : List Row) (tt wt : String) (a : ℚ)
    (d c m : String) (day : Int) (h : SheetInv sheet)
    (htt : tt = "add" ∨ tt = "subtract") :
    SheetInv (add_transaction sheet tt wt a d c m day).1 := by
  have hb := h.2
  show SheetInv (sheet ++
    [⟨day, tt, wt, a, d,
      if wt = "total" then
        (if tt = "add" then (get_current_balances sheet).1 + a
         else (get_current_balances sheet).1 - a)
      else (get_current_balances sheet).1,
      if wt = "wallet" then
        (if tt = "add" then (get_current_balances sheet).2 + a
         else (get_current_balances sheet).2 - a)
      else (get_current_balances sheet).2, c, m⟩])
  apply sheetInv_snoc sheet _ h
  · rcases htt with rfl | rfl <;> by_cases hwt : wt = "total" <;>
      simp +decide [rowDeltaTotal, hwt, hb, sub_eq_add_neg]
  · rcases htt with rfl | rfl <;> by_cases hwt : wt = "wallet" <;>
      simp +decide [rowDeltaWallet, hwt, hb, sub_eq_add_neg]

theorem sheetInv_transfer (sheet : List Row) (f t : String) (a : ℚ)
    (d : String) (day : Int) (h : SheetInv sheet) :
    SheetInv (transfer_between_wallets sheet f t a d day).1 := by
  have hb := h.2
  by_cases h1 : f = "total" ∧ t = "wallet"
  · obtain ⟨rfl, rfl⟩ := h1
    by_cases h2 : (get_current_balances sheet).1 < a
    · have heq : (transfer_between_wallets sheet "total" "wallet" a d day).1 = sheet := by
        simp +decide [transfer_between_wallets, h2]
      rwa [heq]
    · have heq : (transfer_between_wallets sheet "total" "wallet" a d day).1 =
          sheet ++ [⟨day, "transfer", "total" ++ "_to_" ++ "wallet", a, d,
            (get_current_balances sheet).1 - a, (get_current_balances sheet).2 + a,
            "transfer", ""⟩] := by
        simp +decide [transfer_between_wallets, h2]
      rw [heq]
      apply sheetInv_snoc sheet _ h <;>
        simp +decide [rowDeltaTotal, rowDeltaWallet, hb, sub_eq_add_neg]
  · by_cases h3 : f = "wallet" ∧ t = "total"
    · obtain ⟨rfl, rfl⟩ := h3
      by_cases h2 : (get_current_balances sheet).2 < a
      · have heq : (transfer_between_wallets sheet "wallet" "total" a d day).1 = sheet := by
          simp +decide [transfer_between_wallets, h2]
        rwa [heq]
      · have heq : (transfer_between_wallets sheet "wallet" "total" a d day).1 =
            sheet ++ [⟨day, "transfer", "wallet" ++ "_to_" ++ "total", a, d,
              (get_current_balances sheet).1 + a, (get_current_balances sheet).2 - a,
              "transfer", ""⟩] := by
          simp +decide [transfer_between_wallets, h2]
        rw [heq]
        apply sheetInv_snoc sheet _ h <;>
          simp +decide [rowDeltaTotal, rowDeltaWallet, hb, sub_eq_add_neg]
    · have heq : (transfer_between_wallets sheet f t a d day).1 = sheet := by
        simp [transfer_between_wallets, h1, h3]
      rwa [heq]

theorem sheetInv_applyTOp (sheet : List Row) (op : TOp) (h : SheetInv sheet) :
    SheetInv (applyTOp sheet op) := by
  cases op with
  | record isAdd wt a d c m day =>
      apply sheetInv_add_transaction sheet _ wt a d c m day h
      cases isAdd <;> simp
  | transfer f t a d day => exact sheetInv_transfer sheet f t a d day h

theorem sheetInv_foldl (ops : List TOp) (sheet : List Row) (h : SheetInv sheet) :
    SheetInv (ops.foldl applyTOp sheet) := by
  induction ops generalizing sheet with
  | nil => exact h
  | cons op rest ih => exact ih _ (sheetInv_applyTOp sheet op h)

theorem sheetInv_runTOps (ops : List TOp) : SheetInv (runTOps ops) :=
  sheetInv_foldl ops [] sheetInv_nil

theorem sumRemaining_cons (r : LRow) (l : List LRow) :
    sumRemaining (r :: l) = r.remaining + sumRemaining l := by
  simp [sumRemaining]

theorem sumAmount_cons (r : LRow) (l : List LRow) :
    sumAmount (r :: l) = r.amount + sumAmount l := by
  simp [sumAmount]

theorem sumRemaining_concat (l : List LRow) (r : LRow) :
    sumRemaining (l ++ [r]) = sumRemaining l + r.remaining := by
  simp [sumRemaining]

theorem sumAmount_concat (l : List LRow) (r : LRow) :
    sumAmount (l ++ [r]) = sumAmount l + r.amount := by
  simp [sumAmount]

theorem rl_length (rows : List LRow) (p : String) (pool : ℚ) (rt : String) (d : Int) :
    (return_lending_loop rows p pool rt d).1.length = rows.length := by
  induction rows generalizing pool with
  | nil => simp [return_lending_loop]
  | cons r rest ih =>
      simp only [return_lending_loop]
      split_ifs <;> simp [ih]

theorem rl_conservation (rows : List LRow) (p : String) (pool : ℚ) (rt : String) (d : Int) :
    sumRemaining (return_lending_loop rows p pool rt d).1 -
      (return_lending_loop rows p pool rt d).2 = sumRemaining rows - pool := by
  induction rows generalizing pool with
  | nil => simp [return_lending_loop]
  | cons r rest ih =>
      simp only [return_lending_loop]
      split_ifs with h1 h2 h3
      · simp
      · have := ih (pool - r.remaining)
        simp only [sumRemaining_cons]
        simp at this ⊢
        linarith
      · simp only [sumRemaining_cons]
        simp
        ring
      · have := ih pool
        simp only [sumRemaining_cons]
        simp at this ⊢
        linarith

theorem rl_sumAmount (rows : List LRow) (p : String) (pool : ℚ) (rt : String) (d : Int) :
    sumAmount (return_lending_loop rows p pool rt d).1 = sumAmount rows := by
  induction rows generalizing pool with
  | nil => simp [return_lending_loop]
  | cons r rest ih =>
      simp only [return_lending_loop]
      split_ifs <;> simp [sumAmount_cons, ih]

theorem rl_pool_le (rows : List LRow) (p : String) (pool : ℚ) (rt : String) (d : Int)
    (h : ∀ r ∈ rows, 0 ≤ r.remaining) :
    (return_lending_loop rows p pool rt d).2 ≤ pool := by
  induction rows generalizing pool with
  | nil => simp [return_lending_loop]
  | cons r rest ih =>
      have hr := h r (List.mem_cons_self r rest)
      have hrest : ∀ x ∈ rest, 0 ≤ x.remaining := fun x hx => h x (List.mem_cons_of_mem r hx)
      simp only [return_lending_loop]
      split_ifs with h1 h2 h3
      · simp
      · have := ih (pool - r.remaining) hrest
        simp at this ⊢
        linarith
      · simp
        linarith [not_le.mp h1]
      · exact ih pool hrest

theorem rl_bounds (rows : List LRow) (p : String) (pool : ℚ) (rt : String) (d : Int)
    (h : ∀ r ∈ rows, 0 ≤ r.remaining ∧ r.remaining ≤ r.amount) :
    ∀ r' ∈ (return_lending_loop rows p pool rt d).1,
      0 ≤ r'.remaining ∧ r'.remaining ≤ r'.amount := by
  induction rows generalizing pool with
  | nil => simp [return_lending_loop]
  | cons r rest ih =>
      have hr := h r (List.mem_cons_self r rest)
      have hrest : ∀ x ∈ rest, 0 ≤ x.remaining ∧ x.remaining ≤ x.amount :=
        fun x hx => h x (List.mem_cons_of_mem r hx)
      simp only [return_lending_loop]
      split_ifs with h1 h2 h3
      · exact h
      · intro r' hr'
        rcases List.mem_cons.mp hr' with rfl | hmem
        · constructor
          · simp
          · simp
            linarith [hr.1, hr.2]
        · exact ih (pool - r.remaining) hrest r' hmem
      · intro r' hr'
        rcases List.mem_cons.mp hr' with rfl | hmem
        · constructor
          · simp
            linarith [not_le.mp h3]
          · simp
            linarith [not_le.mp h1, hr.2]
        · exact hrest r' hmem
      · intro r' hr'
        rcases List.mem_cons.mp hr' with rfl | hmem
        · exact hr
        · exact ih pool hrest r' hmem

theorem rl_mono (rows : List LRow) (p : String) (pool : ℚ) (rt : String) (d : Int)
    (h : ∀ r ∈ rows, 0 ≤ r.remaining) :
    List.Forall₂ (fun r' r => r'.remaining ≤ r.remaining)
      (return_lending_loop rows p pool rt d).1 rows := by
  induction rows generalizing pool with
  | nil => simp [return_lending_loop]
  | cons r rest ih =>
      have hr := h r (List.mem_cons_self r rest)
      have hrest : ∀ x ∈ rest, 0 ≤ x.remaining := fun x hx => h x (List.mem_cons_of_mem r hx)
      simp only [return_lending_loop]
      split_ifs with h1 h2 h3
      · exact List.forall₂_same.mpr fun x _ => le_refl _
      · exact List.Forall₂.cons (by simpa using hr) (ih (pool - r.remaining) hrest)
      · refine List.Forall₂.cons ?_ (List.forall₂_same.mpr fun x _ => le_refl _)
        simp
        linarith [not_le.mp h1]
      · exact List.Forall₂.cons (le_refl _) (ih pool hrest)

theorem return_lending_lending (lending : List LRow) (transactions : List Row)
    (person : String) (amount : ℚ) (rt : String) (today : Int) :
    (return_lending lending transactions person amount rt today).1 =
      (return_lending_loop lending (pyLower person) amount rt today).1 := by
  simp only [return_lending]
  split_ifs <;> rfl

theorem return_lending_applied (lending : List LRow) (transactions : List Row)
    (person : String) (amount : ℚ) (rt : String) (today : Int)
    (h : ∀ r ∈ lending, 0 ≤ r.remaining) :
    (return_lending lending transactions person amount rt today).2.2.2 =
      amount - (return_lending_loop lending (pyLower person) amount rt today).2 := by
  simp only [return_lending]
  split_ifs with hlt
  · rfl
  · have hle := rl_pool_le lending (pyLower person) amount rt today h
    have : (return_lending_loop lending (pyLower person) amount rt today).2 = amount :=
      le_antisymm hle (not_lt.mp hlt)
    simp [this]

theorem lInv_applyLOp (p : String) (s : LState) (op : LOp) (h : LInv s)
    (ha : ∀ a d day, op = LOp.lend a d day → 0 ≤ a) :
    LInv (applyLOp p s op) := by
  obtain ⟨hb, hsum⟩ := h
  cases op with
  | lend a d day =>
      have ha' : 0 ≤ a := ha a d day rfl
      constructor
      · intro r hr
        simp only [applyLOp, add_lending] at hr
        rcases List.mem_append.mp hr with hmem | hmem
        · exact hb r hmem
        · simp at hmem
          subst hmem
          exact ⟨ha', le_refl _⟩
      · simp only [applyLOp, add_lending, sumRemaining_concat, sumAmount_concat]
        linarith
  | repay a rt day =>
      have hb' : ∀ r ∈ s.lending, 0 ≤ r.remaining := fun r hr => (hb r hr).1
      constructor
      · intro r hr
        simp only [applyLOp, return_lending_lending] at hr
        exact rl_bounds s.lending (pyLower p) a rt day hb r hr
      · simp only [applyLOp, return_lending_lending, return_lending_applied s.lending
          s.transactions p a rt day hb']
        have hcons := rl_conservation s.lending (pyLower p) a rt day
        have hamt := rl_sumAmount s.lending (pyLower p) a rt day
        rw [hamt]
        linarith

theorem lInv_foldl (p : String) (ops : List LOp) (s : LState) (h : LInv s)
    (ha : ∀ a d day, LOp.lend a d day ∈ ops → 0 ≤ a) :
    LInv (ops.foldl (applyLOp p) s) := by
  induction ops generalizing s with
  | nil => exact h
  | cons op rest ih =>
      refine ih (applyLOp p s op) ?_ ?_
      · refine lInv_applyLOp p s op h ?_
        intro a d day heq
        exact ha a d day (heq ▸ List.mem_cons_self op rest)
      · intro a d day hmem
        exact ha a d day (List.mem_cons_of_mem op hmem)

theorem lInv_runLOps (p : String) (ops : List LOp)
    (ha : ∀ a d day, LOp.lend a d day ∈ ops → 0 ≤ a) :
    LInv (runLOps p ops) := by
  refine lInv_foldl p ops ⟨[], [], 0⟩ ?_ ha
  constructor
  · intro r hr
    simp at hr
  · simp [sumRemaining, sumAmount]

/-! ## Claim theorems -/

/-- C1: the claim says a row already in `partial` status is still eligible for
repayment; in the code the loop condition `record[status] == lent` skips
`partial` rows, so a repayment against a person whose only open row is
`partial` changes nothing and fails — even though
`get_pending_lending_for_person` reports that very row as pending. -/
theorem C1_partial_row_not_repayable :
    return_lending c1rows [] "John" 50 "wallet" 1 = (c1rows, [], false, 0) ∧
    get_pending_lending_for_person c1rows "John" = 150 := by
  constructor
  · simp +decide [return_lending, return_lending_loop, c1rows, pyLower]
  · simp +decide [get_pending_lending_for_person, c1rows, pyLower]

/-- C2: for every sequence of record/transfer calls from the empty ledger,
every prefix of the resulting sheet replays (fold of signed deltas from
(0, 0)) to exactly the balance checkpoints stored in the last row of that
prefix; in particular the whole ledger replays to the final checkpoints. -/
theorem C2_balance_replay_invariant :
    ∀ (ops : List TOp) (i : Nat) (h : i < (runTOps ops).length),
      replay ((runTOps ops).take (i + 1)) =
        (((runTOps ops).get ⟨i, h⟩).balance_total,
         ((runTOps ops).get ⟨i, h⟩).balance_wallet) :=
  fun ops i h => (sheetInv_runTOps ops).1 i h

/-- Witness for C2 at a concrete two-call trace and prefix index 0. -/
theorem C2_balance_replay_invariant_witness :
    replay ((runTOps c2ops).take (0 + 1)) =
      (((runTOps c2ops).get ⟨0, by decide⟩).balance_total,
       ((runTOps c2ops).get ⟨0, by decide⟩).balance_wallet) :=
  C2_balance_replay_invariant c2ops 0 (by decide)

/-- C3: for any lend/repay trace of one person with non-negative loan amounts,
every row keeps 0 ≤ remaining ≤ amount, the remainings sum to original
amounts minus applied repayments, a freshly recorded loan starts with
remaining = amount, and one further step never increases the remaining of any existing row. -/
theorem C3_loan_conservation :
    ∀ (person : String) (ops : List LOp),
      (∀ a d day, LOp.lend a d day ∈ ops → 0 ≤ a) →
      (∀ r ∈ (runLOps person ops).lending, 0 ≤ r.remaining ∧ r.remaining ≤ r.amount) ∧
      sumRemaining (runLOps person ops).lending =
        sumAmount (runLOps person ops).lending - (runLOps person ops).applied ∧
      (∀ a d day, ((applyLOp person (runLOps person ops) (LOp.lend a d day)).lending).getLast? =
        some ⟨day, person, a, "lent", d, none, "", a⟩) ∧
      (∀ op : LOp,
        List.Forall₂ (fun r' r => r'.remaining ≤ r.remaining)
          ((applyLOp person (runLOps person ops) op).lending.take
            (runLOps person ops).lending.length)
          (runLOps person ops).lending) := by
  intro p ops ha
  have hInv := lInv_runLOps p ops ha
  refine ⟨hInv.1, hInv.2, ?_, ?_⟩
  · intro a d day
    simp [applyLOp, add_lending, List.getLast?_concat]
  · intro op
    cases op with
    | lend a d day =>
        simp only [applyLOp, add_lending]
        rw [List.take_left]
        exact List.forall₂_same.mpr fun x _ => le_refl _
    | repay a rt day =>
        simp only [applyLOp, return_lending_lending]
        have hm := rl_mono (runLOps p ops).lending (pyLower p) a rt day
          fun r hr => (hInv.1 r hr).1
        have hlen := hm.length_eq
        have htake : (return_lending_loop (runLOps p ops).lending (pyLower p) a rt day).1.take
            (runLOps p ops).lending.length =
            (return_lending_loop (runLOps p ops).lending (pyLower p) a rt day).1 := by
          rw [← hlen]
          exact List.take_length _
        rw [htake]
        exact hm

/-- Witness for C3 at a lend-100 / repay-30 trace. -/
theorem C3_loan_conservation_witness :
    sumRemaining (runLOps "John" c3ops).lending =
      sumAmount (runLOps "John" c3ops).lending - (runLOps "John" c3ops).applied := by
  refine (C3_loan_conservation "John" c3ops ?_).2.1
  intro a d day h
  simp [c3ops] at h
  obtain ⟨rfl, -⟩ := h
  norm_num

/-- C4: transfer fails on an invalid direction (same endpoints or an endpoint
outside total/wallet) or insufficient source balance; every failure leaves the
sheet (hence both balances) unchanged; success appends exactly one row tagged
`<from>_to_<to>` with category `transfer` carrying the returned balances. -/
theorem C4_transfer_guards :
    ∀ (sheet : List Row) (f t : String) (a : ℚ) (d : String) (day : Int),
      ((f = t ∨ ¬(f = "total" ∨ f = "wallet") ∨ ¬(t = "total" ∨ t = "wallet")) →
        transfer_between_wallets sheet f t a d day = (sheet, false, "Invalid transfer", 0, 0)) ∧
      (f = "total" → t = "wallet" → (get_current_balances sheet).1 < a →
        transfer_between_wallets sheet f t a d day =
          (sheet, false, "Insufficient balance in Total Stack", 0, 0)) ∧
      (f = "wallet" → t = "total" → (get_current_balances sheet).2 < a →
        transfer_between_wallets sheet f t a d day =
          (sheet, false, "Insufficient balance in Wallet", 0, 0)) ∧
      ((transfer_between_wallets sheet f t a d day).2.1 = false →
        (transfer_between_wallets sheet f t a d day).1 = sheet ∧
        get_current_balances (transfer_between_wallets sheet f t a d day).1 =
          get_current_balances sheet) ∧
      ((transfer_between_wallets sheet f t a d day).2.1 = true →
        (transfer_between_wallets sheet f t a d day).1 =
          sheet ++ [⟨day, "transfer", f ++ "_to_" ++ t, a, d,
            (transfer_between_wallets sheet f t a d day).2.2.2.1,
            (transfer_between_wallets sheet f t a d day).2.2.2.2, "transfer", ""⟩]) := by
  intro sheet f t a d day
  by_cases h1 : f = "total" ∧ t = "wallet"
  · obtain ⟨rfl, rfl⟩ := h1
    by_cases hlt : (get_current_balances sheet).1 < a
    · have he : transfer_between_wallets sheet "total" "wallet" a d day =
          (sheet, false, "Insufficient balance in Total Stack", 0, 0) := by
        simp +decide [transfer_between_wallets, hlt]
      refine ⟨?_, fun _ _ _ => he, ?_, ?_, ?_⟩ <;> simp +decide [he]
    · have he : transfer_between_wallets sheet "total" "wallet" a d day =
          (sheet ++ [⟨day, "transfer", "total" ++ "_to_" ++ "wallet", a, d,
            (get_current_balances sheet).1 - a, (get_current_balances sheet).2 + a,
            "transfer", ""⟩], true, "Transfer successful",
            (get_current_balances sheet).1 - a, (get_current_balances sheet).2 + a) := by
        simp +decide [transfer_between_wallets, hlt]
      refine ⟨?_, ?_, ?_, ?_, ?_⟩
      · simp +decide
      · intro _ _ hl
        exact absurd hl hlt
      · intro hf
        exact absurd hf (by decide)
      · intro hfalse
        rw [he] at hfalse
        simp at hfalse
      · intro _
        simp [he]
  · by_cases h2 : f = "wallet" ∧ t = "total"
    · obtain ⟨rfl, rfl⟩ := h2
      by_cases hlt : (get_current_balances sheet).2 < a
      · have he : transfer_between_wallets sheet "wallet" "total" a d day =
            (sheet, false, "Insufficient balance in Wallet", 0, 0) := by
          simp +decide [transfer_between_wallets, hlt]
        refine ⟨?_, ?_, fun _ _ _ => he, ?_, ?_⟩ <;> simp +decide [he]
      · have he : transfer_between_wallets sheet "wallet" "total" a d day =
            (sheet ++ [⟨day, "transfer", "wallet" ++ "_to_" ++ "total", a, d,
              (get_current_balances sheet).1 + a, (get_current_balances sheet).2 - a,
              "transfer", ""⟩], true, "Transfer successful",
              (get_current_balances sheet).1 + a, (get_current_balances sheet).2 - a) := by
          simp +decide [transfer_between_wallets, hlt]
        refine ⟨?_, ?_, ?_, ?_, ?_⟩
        · simp +decide
        · intro hf
          exact absurd hf (by decide)
        · intro _ _ hl
          exact absurd hl hlt
        · intro hfalse
          rw [he] at hfalse
          simp at hfalse
        · intro _
          simp [he]
    · have he : transfer_between_wallets sheet f t a d day =
          (sheet, false, "Invalid transfer", 0, 0) := by
        simp [transfer_between_wallets, h1, h2]
      refine ⟨fun _ => he, ?_, ?_, ?_, ?_⟩
      · intro hf ht
        exact absurd ⟨hf, ht⟩ h1
      · intro hf ht
        exact absurd ⟨hf, ht⟩ h2
      · intro _
        simp [he]
      · intro hs
        rw [he] at hs
        simp at hs

/-- Witness for C4: an invalid direction and an insufficient wallet balance,
both on the empty sheet. -/
theorem C4_transfer_guards_witness :
    transfer_between_wallets [] "wallet" "wallet" 5 "d" 0 =
      ([], false, "Invalid transfer", 0, 0) ∧
    transfer_between_wallets [] "wallet" "total" 1 "d" 0 =
      ([], false, "Insufficient balance in Wallet", 0, 0) :=
  ⟨(C4_transfer_guards [] "wallet" "wallet" 5 "d" 0).1 (Or.inl rfl),
   (C4_transfer_guards [] "wallet" "total" 1 "d" 0).2.2.1 rfl rfl (by norm_num [get_current_balances])⟩

/-- C5: loans of 100 (first) and 200 (second) and one repayment of 150: the
first loan closes (`returned`, remaining 0), the second becomes `partial` with
remaining 150, and one `add` transaction of 150 credits the target wallet. -/
theorem C5_oldest_first_allocation :
    return_lending c5rows [] "John" 150 "wallet" 3 =
      ([⟨1, "John", 100, "returned", "", some 3, "wallet", 0⟩,
        ⟨2, "John", 200, "partial", "", none, "", 150⟩],
       [⟨3, "add", "wallet", 150, "Returned by John", 0, 150, "lending", ""⟩],
       true, 150) := by
  simp +decide [return_lending, return_lending_loop, add_transaction,
    get_current_balances, c5rows, pyLower]
  norm_num

/-- C6 counterexample: one in-window debit of 50 against a budget of 100 gives
percentage 50; the banding of the claim (≥50 ⇒ moderate) predicts `moderate`, but
`analyze_budget` has no moderate band (its bands are ≥100, ≥90, ≥75) and
reports `good`. -/
theorem C6_claim_counterexample :
    ((analyze_budget c6ts [("food", 100)] 30 0).1.map fun e => (e.1, e.2.status)) =
      [("food", "good")] ∧ ("good" : String) ≠ "moderate" := by
  refine ⟨?_, by decide⟩
  norm_num +decide [analyze_budget, category_spending, c6ts, normCat]

/-- C6 (amended): for every budgeted category with a positive budget,
`analyze_budget` reports percentage = spent/budget×100 and bands the status as
≥100 exceeded, ≥90 critical, ≥75 warning, else good — there is no moderate
band and the warning threshold is 75, not 80. -/
theorem C6_budget_banding :
    ∀ (ts : List Row) (budgets : List (String × ℚ)) (pd now : Int)
      (c : String) (e : BudgetEntry),
      (c, e) ∈ (analyze_budget ts budgets pd now).1 → 0 < e.budget →
      e.percentage = e.spent / e.budget * 100 ∧
      e.status = (if 100 ≤ e.percentage then "exceeded"
        else if 90 ≤ e.percentage then "critical"
        else if 75 ≤ e.percentage then "warning"
        else "good") := by
  intro ts budgets pd now c e hmem hpos
  simp only [analyze_budget, List.mem_map] at hmem
  obtain ⟨cb, hcb, heq⟩ := hmem
  injection heq with heq1 heq2
  subst heq2
  have hpos' : 0 < cb.2 := hpos
  constructor
  · show (if 0 < cb.2 then category_spending ts (now - pd) cb.1 / cb.2 * 100 else 0) =
      category_spending ts (now - pd) cb.1 / cb.2 * 100
    rw [if_pos hpos']
  · rfl

/-- Witness for C6 (amended) at the concrete counterexample input. -/
theorem C6_budget_banding_witness :
    ((50 : ℚ) = 50 / 100 * 100 ∧
     ("good" : String) = (if (100 : ℚ) ≤ 50 then "exceeded"
        else if (90 : ℚ) ≤ 50 then "critical"
        else if (75 : ℚ) ≤ 50 then "warning"
        else "good")) := by
  have h := C6_budget_banding c6ts [("food", 100)] 30 0 "food"
    ⟨100, 50, 50, 50, "good"⟩ ?_ (by norm_num)
  · exact h
  · norm_num +decide [analyze_budget, category_spending, c6ts, normCat]

theorem weekTotals_c7ts : weekTotals c7ts none 4 100 = [100, 100, 130, 130] := by
  norm_num +decide [weekTotals, weekTotal, c7ts, normCat, List.range_succ]

/-- C7: `detect_trend` reports "Not enough data" with fewer than 2
transactions; otherwise it compares the average of the two most recent weekly
buckets against the average of the two oldest and labels the change
(> +15 increasing, < −15 decreasing, else stable); on weekly totals
[100, 100, 130, 130] (oldest first) it reports "increasing 30%". -/
theorem C7_detect_trend_bands :
    (∀ (ts : List Row) (cat : Option String) (weeks : Nat) (now : Int),
      ts.length < 2 → detect_trend ts cat weeks now = "Not enough data") ∧
    (∀ (ts : List Row) (cat : Option String) (weeks : Nat) (now : Int),
      2 ≤ ts.length → 2 ≤ weeks →
      ∀ recent_avg older_avg : ℚ,
        recent_avg = ((weekTotals ts cat weeks now).drop
          ((weekTotals ts cat weeks now).length - 2)).sum / 2 →
        older_avg = ((weekTotals ts cat weeks now).take 2).sum / 2 →
        older_avg ≠ 0 →
        ((15 < (recent_avg - older_avg) / older_avg * 100 →
            detect_trend ts cat weeks now =
              "increasing " ++ toString (pyRound |(recent_avg - older_avg) / older_avg * 100|) ++ "%") ∧
         ((recent_avg - older_avg) / older_avg * 100 < -15 →
            detect_trend ts cat weeks now =
              "decreasing " ++ toString (pyRound |(recent_avg - older_avg) / older_avg * 100|) ++ "%") ∧
         (-15 ≤ (recent_avg - older_avg) / older_avg * 100 →
            (recent_avg - older_avg) / older_avg * 100 ≤ 15 →
            detect_trend ts cat weeks now = "stable"))) ∧
    detect_trend c7ts none 4 100 = "increasing 30%" := by
  refine ⟨?_, ?_, ?_⟩
  · intro ts cat weeks now hlen
    simp [detect_trend, hlen]
  · intro ts cat weeks now hlen hweeks ra oa hra hoa hne
    subst hra
    subst hoa
    have h2 : ¬ ts.length < 2 := not_lt.mpr hlen
    have hwlen : (weekTotals ts cat weeks now).length = weeks := by
      rw [weekTotals, List.length_reverse, List.length_map, List.length_range]
    have h3 : ¬ (weekTotals ts cat weeks now).length < 2 := by
      rw [hwlen]
      exact not_lt.mpr hweeks
    refine ⟨?_, ?_, ?_⟩
    · intro hch
      simp only [detect_trend, if_neg h2, if_neg h3, if_neg hne, if_pos hch]
    · intro hch
      have hch' : ¬ 15 < (((weekTotals ts cat weeks now).drop
          ((weekTotals ts cat weeks now).length - 2)).sum / 2 -
          ((weekTotals ts cat weeks now).take 2).sum / 2) /
          (((weekTotals ts cat weeks now).take 2).sum / 2) * 100 := by linarith
      simp only [detect_trend, if_neg h2, if_neg h3, if_neg hne, if_neg hch', if_pos hch]
    · intro hlo hhi
      have hhi' : ¬ 15 < (((weekTotals ts cat weeks now).drop
          ((weekTotals ts cat weeks now).length - 2)).sum / 2 -
          ((weekTotals ts cat weeks now).take 2).sum / 2) /
          (((weekTotals ts cat weeks now).take 2).sum / 2) * 100 := not_lt.mpr hhi
      have hlo' : ¬ (((weekTotals ts cat weeks now).drop
          ((weekTotals ts cat weeks now).length - 2)).sum / 2 -
          ((weekTotals ts cat weeks now).take 2).sum / 2) /
          (((weekTotals ts cat weeks now).take 2).sum / 2) * 100 < -15 := not_lt.mpr hlo
      simp only [detect_trend, if_neg h2, if_neg h3, if_neg hne, if_neg hhi', if_neg hlo']
  · simp only [detect_trend, weekTotals_c7ts]
    norm_num [pyRound, c7ts]
    rfl

/-- Witness for C7: the too-few-transactions case, and the increasing band at
the concrete 100/100/130/130 buckets. -/
theorem C7_detect_trend_bands_witness :
    detect_trend [] none 4 0 = "Not enough data" ∧
    detect_trend c7ts none 4 100 =
      "increasing " ++ toString (pyRound |((130 : ℚ) - 100) / 100 * 100|) ++ "%" := by
  constructor
  · exact C7_detect_trend_bands.1 [] none 4 0 (by decide)
  · refine (C7_detect_trend_bands.2.1 c7ts none 4 100 (by decide) (by decide)
      130 100 ?_ ?_ (by norm_num)).1 (by norm_num)
    · rw [weekTotals_c7ts]
      norm_num
    · rw [weekTotals_c7ts]
      norm_num

/-- C8: the health score is the raw factor sum clamped to [0, 100] (so always
in range, and 100 whenever the raw score overshoots), and the letter grade
bands are ≥80 A, ≥60 B, ≥40 C, else D — always one of the four letters. -/
theorem C8_health_score_clamped :
    ∀ d : HealthData,
      (0 ≤ (calculate_financial_health_score d).1 ∧
        (calculate_financial_health_score d).1 ≤ 100) ∧
      (calculate_financial_health_score d).1 = max 0 (min 100 (health_raw_score d)) ∧
      (100 < health_raw_score d → (calculate_financial_health_score d).1 = 100) ∧
      (80 ≤ (calculate_financial_health_score d).1 →
        (calculate_financial_health_score d).2 = "A") ∧
      (60 ≤ (calculate_financial_health_score d).1 →
        (calculate_financial_health_score d).1 < 80 →
        (calculate_financial_health_score d).2 = "B") ∧
      (40 ≤ (calculate_financial_health_score d).1 →
        (calculate_financial_health_score d).1 < 60 →
        (calculate_financial_health_score d).2 = "C") ∧
      ((calculate_financial_health_score d).1 < 40 →
        (calculate_financial_health_score d).2 = "D") ∧
      ((calculate_financial_health_score d).2 = "A" ∨
        (calculate_financial_health_score d).2 = "B" ∨
        (calculate_financial_health_score d).2 = "C" ∨
        (calculate_financial_health_score d).2 = "D") := by
  intro d
  have hs : (calculate_financial_health_score d).1 = max 0 (min 100 (health_raw_score d)) := rfl
  have hg : (calculate_financial_health_score d).2 =
      (if 80 ≤ max 0 (min 100 (health_raw_score d)) then "A"
       else if 60 ≤ max 0 (min 100 (health_raw_score d)) then "B"
       else if 40 ≤ max 0 (min 100 (health_raw_score d)) then "C" else "D") := rfl
  refine ⟨⟨?_, ?_⟩, hs, ?_, ?_, ?_, ?_, ?_, ?_⟩
  · rw [hs]
    exact le_max_left 0 _
  · rw [hs]
    exact max_le (by norm_num) (min_le_left 100 _)
  · intro h
    rw [hs]
    omega
  · intro h
    rw [hs] at h
    rw [hg, if_pos h]
  · intro h1 h2
    rw [hs] at h1 h2
    rw [hg, if_neg (by omega), if_pos h1]
  · intro h1 h2
    rw [hs] at h1 h2
    rw [hg, if_neg (by omega), if_neg (by omega), if_pos h1]
  · intro h
    rw [hs] at h
    rw [hg, if_neg (by omega), if_neg (by omega), if_neg (by omega)]
  · rw [hg]
    split_ifs <;> simp

/-- Witness for C8: a pathological input whose raw score is 135 clamps to 100
with grade A. -/
theorem C8_health_score_clamped_witness :
    (calculate_financial_health_score c8data).1 = 100 ∧
    (calculate_financial_health_score c8data).2 = "A" := by
  have h := C8_health_score_clamped c8data
  have hraw : health_raw_score c8data = 135 := by
    norm_num +decide [health_raw_score, c8data]
  have h100 := h.2.2.1 (by rw [hraw]; norm_num)
  exact ⟨h100, h.2.2.2.1 (by rw [h100]; norm_num)⟩

/-- C9: for a positive window, the daily average divides the in-window debit
sum by the fixed divisor `days`, while the category average divides the
in-window in-category debit sum by max(count, 1) — two distinct divisor
semantics. -/
theorem C9_average_divisors :
    ∀ (ts : List Row) (c : String) (days now : Int), 0 < days →
      calculate_daily_average ts days now = spec_daily_average ts days now ∧
      calculate_category_average ts c days now = spec_category_average ts c days now := by
  intro ts c days now hd
  constructor
  · by_cases h : ts = []
    · subst h
      simp [calculate_daily_average, spec_daily_average]
    · simp [calculate_daily_average, spec_daily_average, h, hd]
  · by_cases h : ts = []
    · subst h
      simp [calculate_category_average, spec_category_average]
    · simp [calculate_category_average, spec_category_average, h]

/-- Witness for C9 at a one-debit list and a 30-day window. -/
theorem C9_average_divisors_witness :
    calculate_daily_average c6ts 30 0 = spec_daily_average c6ts 30 0 ∧
    calculate_category_average c6ts "food" 30 0 = spec_category_average c6ts "food" 30 0 :=
  C9_average_divisors c6ts "food" 30 0 (by norm_num)

/-- C10: a call to `add_transaction` with a wallet_type outside total/wallet
still appends a row, but both checkpoints in the row and the returned pair
equal the balances before the call — the amount is silently dropped. -/
theorem C10_unknown_wallet_type_drops_amount :
    ∀ (sheet : List Row) (tt wt : String) (a : ℚ) (d c m : String) (day : Int),
      wt ≠ "total" → wt ≠ "wallet" →
      add_transaction sheet tt wt a d c m day =
        (sheet ++ [⟨day, tt, wt, a, d, (get_current_balances sheet).1,
          (get_current_balances sheet).2, c, m⟩],
         (get_current_balances sheet).1, (get_current_balances sheet).2) := by
  intro sheet tt wt a d c m day h1 h2
  simp [add_transaction, h1, h2]

/-- Witness for C10: a transfer tag passed as wallet_type on the empty
sheet. -/
theorem C10_unknown_wallet_type_drops_amount_witness :
    add_transaction [] "subtract" "total_to_wallet" 5 "d" "c" "m" 0 =
      ([⟨0, "subtract", "total_to_wallet", 5, "d", 0, 0, "c", "m"⟩], 0, 0) :=
  C10_unknown_wallet_type_drops_amount [] "subtract" "total_to_wallet" 5 "d" "c" "m" 0
    (by decide) (by decide)

end PayLog
